import Mathlib

/-!
Verification development for the smartctl_exporter repository
(single Go source file smartctl_exporter.go).

The Go program shells out to the smartctl binary, parses its JSON output
and republishes numeric attributes as Prometheus gauges.  The embedding
below models:

 - the dynamic JSON trees produced by json.Unmarshal into
   map[string]interface{} (type JValue / JArr / JObj, numbers as exact
   rationals in place of IEEE float64 — all values handled by the claims
   are small integers, where the two agree);
 - Go map assignment / lookup / delete on string-keyed maps as
   association lists with overwrite semantics (mapSet / mapGet / mapDel);
 - the recursive flattener parseAttributes;
 - the attribute extractors smartSat, smartNvme, smartScsi and
   smartMegaraid, with the external process run abstracted to its error
   flag, exit code and unmarshal success;
 - the exit-code classification performed by the callers of
   runSmartctlCmd;
 - the sanitizer sanitizeMetricName;
 - the MegaRAID type-string pattern (sat\+)?(megaraid,(\d+)) and
   getMegaraidDeviceID;
 - device discovery getDrives / getDeviceInfo / getMegaraidDeviceInfo /
   getMegaraidDeviceType, parameterised by an environment Env describing
   the outcomes of the external smartctl invocations.
-/

/-! ## Dynamic JSON values

Model of Go interface{} values produced by encoding/json: numbers
(float64, modelled as Rat), strings, booleans, null, arrays and objects.
Objects are keyed lists; Go maps have unique keys, and iteration order —
unspecified in Go — is fixed here to the list order. -/

mutual
inductive JValue : Type where
  | num (x : Rat)
  | str (s : String)
  | bool (b : Bool)
  | null
  | arr (elems : JArr)
  | obj (fields : JObj)
  deriving DecidableEq
inductive JArr : Type where
  | nil
  | cons (hd : JValue) (tl : JArr)
  deriving DecidableEq
inductive JObj : Type where
  | nil
  | cons (key : String) (val : JValue) (tl : JObj)
  deriving DecidableEq
end

/-- Go map read m[k] returning the value if present (first match: keys of
objects built by json.Unmarshal are unique). -/
def JObj.lookup : JObj → String → Option JValue
  | .nil, _ => none
  | .cons k v tl, key => if k = key then some v else JObj.lookup tl key

/-! ## Go string-keyed maps

Association lists with overwrite-on-assignment, modelling Go map writes,
reads and deletes.  The maps built by the program only ever grow through
mapSet, so keys stay unique. -/

/-- Go map assignment m[k] = v: overwrite an existing entry in place,
otherwise append. -/
def mapSet {α : Type} : List (String × α) → String → α → List (String × α)
  | [], k, v => [(k, v)]
  | (k0, v0) :: rest, k, v =>
    if k0 = k then (k, v) :: rest else (k0, v0) :: mapSet rest k v

/-- Go map read m[k] (with presence flag), as an Option. -/
def mapGet {α : Type} : List (String × α) → String → Option α
  | [], _ => none
  | (k0, v0) :: rest, k => if k0 = k then some v0 else mapGet rest k

/-- Go delete(m, k): drop the entry carrying that key (maps built by
mapSet carry each key at most once). -/
def mapDel {α : Type} : List (String × α) → String → List (String × α)
  | [], _ => []
  | (k0, v0) :: rest, k =>
    if k0 = k then mapDel rest k else (k0, v0) :: mapDel rest k

/-- A sequence of Go delete(m, k) statements, one per key in ks. -/
def mapDelAll {α : Type} (ks : List String) (m : List (String × α)) : List (String × α) :=
  ks.foldl mapDel m

/-- Attribute maps: map[string]float64 in the Go source. -/
abbrev AttrMap := List (String × Rat)

/-! ## The recursive flattener -/

/-- Embedding of parseAttributes (smartctl_exporter.go:282-303): walks the
object, emitting numeric leaves (booleans as 1/0) under the key
prefix_key (no separator when the prefix is empty), recursing into nested
objects and silently skipping every other value shape (strings, arrays,
null).  The Go switch also has a case int, unreachable for values decoded
by encoding/json, which only produces float64 numbers. -/
def parseAttributes (pre : String) (data : JObj) (attributes : AttrMap) : AttrMap :=
  match data with
  | .nil => attributes
  | .cons key v rest =>
    let fullKey := if pre ≠ "" then pre ++ "_" ++ key else key
    let attributes' :=
      match v with
      | .num x => mapSet attributes fullKey x
      | .bool b => mapSet attributes fullKey (if b then 1 else 0)
      | .obj fields => parseAttributes fullKey fields attributes
      | _ => attributes
    parseAttributes pre rest attributes'

/-- Embedding of boolToFloat (smartctl_exporter.go:477-482). -/
def boolToFloat (b : Bool) : Rat :=
  if b then 1 else 0

/-! ## Raw-value parsing -/

/-- Accumulate a digit run as a natural number. -/
def digitsVal (ds : List Char) : Nat :=
  ds.foldl (fun n c => n * 10 + (c.toNat - 48)) 0

/-- Model of strconv.ParseFloat restricted to finite decimal literals:
optional sign, integer and/or fractional digits, optional decimal
exponent.  Hexadecimal floats, "inf"/"nan" forms and digit-separating
underscores, which Go also accepts, are outside the modelled fragment
(smartctl raw strings are plain decimals).  The exact rational value
stands in for the nearest binary float64. -/
def goParseFloat (s : String) : Option Rat :=
  match s.data with
  | [] => none
  | l =>
    let signAndRest : Bool × List Char :=
      match l with
      | '+' :: r => (false, r)
      | '-' :: r => (true, r)
      | _ => (false, l)
    let neg := signAndRest.1
    let l1 := signAndRest.2
    let ip := l1.takeWhile Char.isDigit
    let r1 := l1.drop ip.length
    let fracAndRest : List Char × List Char :=
      match r1 with
      | '.' :: r => (r.takeWhile Char.isDigit, r.drop (r.takeWhile Char.isDigit).length)
      | _ => ([], r1)
    let fp := fracAndRest.1
    let r2 := fracAndRest.2
    if ip = [] ∧ fp = [] then none
    else
      let mantNum : Int := (digitsVal (ip ++ fp) : Nat)
      let signedNum : Int := if neg then -mantNum else mantNum
      match r2 with
      | [] => some (mkRat signedNum (10 ^ fp.length))
      | e :: r3 =>
        if e = 'e' ∨ e = 'E' then
          let expAndRest : Bool × List Char :=
            match r3 with
            | '+' :: r => (false, r)
            | '-' :: r => (true, r)
            | _ => (false, r3)
          let eneg := expAndRest.1
          let r4 := expAndRest.2
          let ed := r4.takeWhile Char.isDigit
          if ed = [] ∨ r4.drop ed.length ≠ [] then none
          else if eneg then some (mkRat signedNum (10 ^ (fp.length + digitsVal ed)))
          else some (mkRat (signedNum * 10 ^ digitsVal ed) (10 ^ fp.length))
        else none

/-- Accumulator-style splitter behind stringFields: cur holds the current
token's characters in reverse. -/
def fieldsAux : List Char → List Char → List String
  | [], cur => if cur = [] then [] else [⟨cur.reverse⟩]
  | c :: cs, cur =>
    if c.isWhitespace then
      if cur = [] then fieldsAux cs [] else ⟨cur.reverse⟩ :: fieldsAux cs []
    else fieldsAux cs (c :: cur)

/-- Model of strings.Fields: the whitespace-delimited tokens of s, with no
empty tokens. -/
def stringFields (s : String) : List String :=
  fieldsAux s.data []

/-- Embedding of parseRawValue (smartctl_exporter.go:465-475): parse the
first whitespace-delimited token of the raw string as a float, if any. -/
def parseRawValue (rawStr : String) : Option Rat :=
  match stringFields rawStr with
  | [] => none
  | p :: _ => goParseFloat p

/-! ## Metric-name sanitization -/

/-- The single-character substitutions of the strings.Replacer in
sanitizeMetricName (smartctl_exporter.go:485-490). -/
def replaceChar (c : Char) : List Char :=
  if c = '-' then ['_']
  else if c = ' ' then ['_']
  else if c = '.' then []
  else if c = '/' then ['_']
  else [c]

/-- Embedding of sanitizeMetricName (smartctl_exporter.go:484-492): apply
the replacer, then strings.ToLower (ASCII case mapping; all metric names
involved are ASCII). -/
def sanitizeMetricName (name : String) : String :=
  ⟨((name.data.map replaceChar).flatten).map Char.toLower⟩

/-! ## The MegaRAID type pattern

megaraidRegexp = (sat\+)?(megaraid,(\d+)) (smartctl_exporter.go:48).
FindStringSubmatch is modelled directly: scan for the leftmost starting
position admitting a match; at a position the optional group is tried
present first, then absent; the digit run is maximal.  The pair returned
is (group 2, group 3) = ("megaraid,<digits>", "<digits>"). -/

/-- Match megaraid,(\d+) at the head of l, returning groups 2 and 3. -/
def megaraidCore (l : List Char) : Option (String × String) :=
  if "megaraid,".data.isPrefixOf l then
    let ds := (l.drop 9).takeWhile Char.isDigit
    if ds = [] then none
    else some (⟨"megaraid,".data ++ ds⟩, ⟨ds⟩)
  else none

/-- Match (sat\+)?(megaraid,(\d+)) at the head of l. -/
def tryMegaraidAt (l : List Char) : Option (String × String) :=
  match (if "sat+".data.isPrefixOf l then megaraidCore (l.drop 4) else none) with
  | some r => some r
  | none => megaraidCore l

/-- Leftmost match of the pattern in l. -/
def findMegaraid : List Char → Option (String × String)
  | [] => none
  | c :: cs =>
    match tryMegaraidAt (c :: cs) with
    | some r => some r
    | none => findMegaraid cs

/-- megaraidRegexp.MatchString. -/
def megaraidMatchString (s : String) : Bool :=
  (findMegaraid s.data).isSome

/-- Embedding of getMegaraidDeviceID (smartctl_exporter.go:223-229):
matches[2] when FindStringSubmatch returns its 4 entries, "" otherwise. -/
def getMegaraidDeviceID (typ : String) : String :=
  match findMegaraid typ.data with
  | some (g2, _) => g2
  | none => ""

/-! ## Exit-code classification at the callers of runSmartctlCmd -/

/-- Whether the Go error returned by cmd.CombinedOutput is non-nil: it is
exactly when the process failed to start or exited with a nonzero code. -/
def goCombinedOutputErr (startFailed : Bool) (exitCode : Int) : Bool :=
  startFailed || exitCode != 0

/-- The guard used by the four attribute extractors
(smartctl_exporter.go:307, 373, 417, 442): the invocation is discarded
only when the error is non-nil and the exit code is none of 0, 2, 4, 6. -/
def extractorFatal (err : Bool) (exitCode : Int) : Bool :=
  err && exitCode != 0 && exitCode != 2 && exitCode != 4 && exitCode != 6

/-! ## Attribute extractors -/

/-- The raw field of a SAT table entry. -/
structure SatRaw where
  string : String
  deriving DecidableEq

/-- One entry of the decoded ata_smart_attributes.table in smartSat. -/
structure SatAttr where
  id : Int
  name : String
  value : Int
  raw : SatRaw
  deriving DecidableEq

/-- The fields of the anonymous result struct decoded by smartSat:
the attribute table and smart_status.passed. -/
structure SatData where
  table : List SatAttr
  passed : Bool
  deriving DecidableEq

/-- The attribute-building part of smartSat (smartctl_exporter.go:399-412):
name -> value for every table entry, name_raw -> parsed raw token when it
parses, then smart_passed from the health flag. -/
def smartSatExtract (result : SatData) : AttrMap :=
  let attributes : AttrMap :=
    result.table.foldl
      (fun attributes attr =>
        let attributes := mapSet attributes attr.name (attr.value : Rat)
        match parseRawValue attr.raw.string with
        | some rawValue => mapSet attributes (attr.name ++ "_raw") rawValue
        | none => attributes)
      []
  mapSet attributes "smart_passed" (boolToFloat result.passed)

/-- Embedding of smartSat (smartctl_exporter.go:371-413), with the
process run abstracted to (err, exitCode) and the unmarshal to
(parseOk, result). -/
def smartSat (err : Bool) (exitCode : Int) (parseOk : Bool) (result : SatData) :
    Option AttrMap :=
  if extractorFatal err exitCode then none
  else if !parseOk then none
  else some (smartSatExtract result)

/-- The attribute-building part of smartNvme (smartctl_exporter.go:434-437). -/
def smartNvmeExtract (log : JObj) (passed : Bool) : AttrMap :=
  mapSet (parseAttributes "" log []) "smart_passed" (boolToFloat passed)

/-- Embedding of smartNvme (smartctl_exporter.go:415-438). -/
def smartNvme (err : Bool) (exitCode : Int) (parseOk : Bool) (log : JObj) (passed : Bool) :
    Option AttrMap :=
  if extractorFatal err exitCode then none
  else if !parseOk then none
  else some (smartNvmeExtract log passed)

/-- The keys removed by smartScsi after flattening
(smartctl_exporter.go:457-460), in delete order. -/
def scsiRemoveKeys : List String :=
  ["json_format_version", "smartctl", "device", "smart_status"]

/-- The attribute-building part of smartScsi (smartctl_exporter.go:453-462):
flatten the whole document, then delete the four fixed keys. -/
def smartScsiExtract (result : JObj) : AttrMap :=
  mapDelAll scsiRemoveKeys (parseAttributes "" result [])

/-- Embedding of smartScsi (smartctl_exporter.go:440-463). -/
def smartScsi (err : Bool) (exitCode : Int) (parseOk : Bool) (result : JObj) :
    Option AttrMap :=
  if extractorFatal err exitCode then none
  else if !parseOk then none
  else some (smartScsiExtract result)

/-- The keys removed by smartMegaraid (smartctl_exporter.go:360-366), in
delete order. -/
def megaraidRemoveKeys : List String :=
  ["json_format_version", "smartctl", "device", "ata_smart_attributes",
   "scsi_grown_defect_list", "scsi_error_counter_log", "smart_status"]

/-- Go type assertion attr[key].(string) with its zero value "" on failure. -/
def jStr (attr : JObj) (key : String) : String :=
  match attr.lookup key with
  | some (.str s) => s
  | _ => ""

/-- Go type assertion attr[key].(float64) with its zero value 0 on failure. -/
def jNum (attr : JObj) (key : String) : Rat :=
  match attr.lookup key with
  | some (.num x) => x
  | _ => 0

/-- The ATA-branch table loop of smartMegaraid
(smartctl_exporter.go:337-350): per entry, name -> value and, when the
raw string parses, name_raw -> parsed value; non-object entries are
skipped. -/
def megaraidAtaTable : JArr → AttrMap → AttrMap
  | .nil, attributes => attributes
  | .cons item rest, attributes =>
    megaraidAtaTable rest
      (match item with
       | .obj attr =>
         let name := jStr attr "name"
         let value := jNum attr "value"
         let rawString :=
           match attr.lookup "raw" with
           | some (.obj raw) => jStr raw "string"
           | _ => ""
         let attributes := mapSet attributes name value
         match parseRawValue rawString with
         | some rawValue => mapSet attributes (name ++ "_raw") rawValue
         | none => attributes
       | _ => attributes)

/-- The attribute-building part of smartMegaraid
(smartctl_exporter.go:312-368): resolve the device protocol (nil result
when the device object or its protocol string is missing), build the
attribute map per protocol (ATA table walk, SCSI generic flattening,
otherwise empty), then delete the seven fixed keys. -/
def smartMegaraidExtract (result : JObj) : Option AttrMap :=
  match result.lookup "device" with
  | some (.obj deviceInfo) =>
    match deviceInfo.lookup "protocol" with
    | some (.str protocol) =>
      let attributes : AttrMap :=
        if protocol = "ATA" then
          match result.lookup "ata_smart_attributes" with
          | some (.obj ataSmartAttributes) =>
            match ataSmartAttributes.lookup "table" with
            | some (.arr table) => megaraidAtaTable table []
            | _ => []
          | _ => []
        else if protocol = "SCSI" then
          parseAttributes "" result []
        else []
      some (mapDelAll megaraidRemoveKeys attributes)
    | _ => none
  | _ => none

/-- Embedding of smartMegaraid (smartctl_exporter.go:305-369). -/
def smartMegaraid (err : Bool) (exitCode : Int) (parseOk : Bool) (result : JObj) :
    Option AttrMap :=
  if extractorFatal err exitCode then none
  else if !parseOk then none
  else smartMegaraidExtract result

/-! ## Device discovery -/

/-- The Device struct (smartctl_exporter.go:23-32).  The Go field Type is
called typ here (Type is reserved in Lean); defaults are the Go zero
values. -/
structure Device where
  Name : String := ""
  typ : String := ""
  ModelFamily : String := ""
  ModelName : String := ""
  SerialNumber : String := ""
  UserCapacity : String := ""
  BusDevice : String := ""
  MegaraidID : String := ""
  deriving DecidableEq

/-- One entry of the decoded scan output in getDrives. -/
structure ScanEntry where
  name : String
  typ : String
  openError : String
  deriving DecidableEq

/-- The fields decoded from a -i info query, covering both the plain and
the MegaRAID variant (scsiModelName and protocol are only read on the
MegaRAID paths). -/
structure InfoResult where
  modelFamily : String := ""
  modelName : String := ""
  serialNumber : String := ""
  userCapacityBytes : Int := 0
  scsiModelName : String := ""
  protocol : String := ""
  deriving DecidableEq

/-- Outcomes of the external smartctl invocations made during discovery.
For each command: whether the Go error of the run was non-nil (Err),
whether json.Unmarshal of its output succeeded (ParseOk), and the decoded
fields.  The scan command is keyed by nothing (it is run once), the plain
info query by the device name, the MegaRAID info query by device name and
megaraid ID (run with identical arguments by getMegaraidDeviceInfo and
getMegaraidDeviceType, hence a single deterministic outcome). -/
structure Env where
  scanErr : Bool
  scanParseOk : Bool
  scanDevices : List ScanEntry
  infoErr : String → Bool
  infoParseOk : String → Bool
  infoResult : String → InfoResult
  midErr : String → String → Bool
  midParseOk : String → String → Bool
  midResult : String → String → InfoResult

/-- Embedding of getDeviceInfo (smartctl_exporter.go:115-147): on a run
error or unmarshal failure return the zero Device; otherwise fill the
metadata, rendering a nonpositive capacity as "Unknown". -/
def getDeviceInfo (env : Env) (dev : String) : Device :=
  if env.infoErr dev then {}
  else if !(env.infoParseOk dev) then {}
  else
    let result := env.infoResult dev
    let userCapacity :=
      if result.userCapacityBytes > 0 then toString result.userCapacityBytes else "Unknown"
    { ModelFamily := result.modelFamily, ModelName := result.modelName,
      SerialNumber := result.serialNumber, UserCapacity := userCapacity }

/-- Embedding of getMegaraidDeviceInfo (smartctl_exporter.go:149-191):
nil on an unparsable megaraid ID, a run error or unmarshal failure;
otherwise the metadata, preferring scsi_model_name over model_name. -/
def getMegaraidDeviceInfo (env : Env) (dev typ : String) : Option Device :=
  let megaraidID := getMegaraidDeviceID typ
  if megaraidID = "" then none
  else if env.midErr dev megaraidID then none
  else if !(env.midParseOk dev megaraidID) then none
  else
    let result := env.midResult dev megaraidID
    let modelName :=
      if result.scsiModelName ≠ "" then result.scsiModelName else result.modelName
    let userCapacity :=
      if result.userCapacityBytes > 0 then toString result.userCapacityBytes else "Unknown"
    some { ModelFamily := result.modelFamily, ModelName := modelName,
           SerialNumber := result.serialNumber, UserCapacity := userCapacity }

/-- Embedding of getMegaraidDeviceType (smartctl_exporter.go:193-221). -/
def getMegaraidDeviceType (env : Env) (dev typ : String) : String :=
  let megaraidID := getMegaraidDeviceID typ
  if megaraidID = "" then "unknown"
  else if env.midErr dev megaraidID then "unknown"
  else if !(env.midParseOk dev megaraidID) then "unknown"
  else if (env.midResult dev megaraidID).protocol = "ATA" then "sat"
  else if (env.midResult dev megaraidID).protocol = "SCSI" then "scsi"
  else "unknown"

/-- The body of the discovery loop of getDrives
(smartctl_exporter.go:84-110) for one scan entry. -/
def addDevice (env : Env) (disks : List (String × Device)) (entry : ScanEntry) :
    List (String × Device) :=
  if entry.openError ≠ "" then disks
  else
    let dev := entry.name
    let typ := entry.typ
    if megaraidMatchString typ then
      match getMegaraidDeviceInfo env dev typ with
      | none => disks
      | some diskAttrs =>
        let diskAttrs :=
          { diskAttrs with
            typ := getMegaraidDeviceType env dev typ,
            BusDevice := dev,
            MegaraidID := getMegaraidDeviceID typ,
            Name := dev ++ "_" ++ getMegaraidDeviceID typ }
        mapSet disks diskAttrs.Name diskAttrs
    else
      let diskAttrs := { getDeviceInfo env dev with typ := typ, Name := dev }
      mapSet disks dev diskAttrs

/-- Embedding of getDrives (smartctl_exporter.go:63-113): empty registry
on a scan run error or scan unmarshal failure, otherwise the loop over
the scanned entries. -/
def getDrives (env : Env) : List (String × Device) :=
  if env.scanErr then []
  else if !env.scanParseOk then []
  else env.scanDevices.foldl (addDevice env) []

/-! ## Flat objects -/

/-- A flat all-numeric JSON object built from a list of key/value pairs. -/
def flatNumObj : List (String × Rat) → JObj
  | [] => .nil
  | (k, x) :: rest => .cons k (.num x) (flatNumObj rest)

/-! ## Concrete environments and payloads used by the claims -/

/-- An environment in which every smartctl invocation succeeds (nil error,
decodable output) and decodes to zero values, with an empty scan list. -/
def envOk : Env :=
  { scanErr := false, scanParseOk := true, scanDevices := [],
    infoErr := fun _ => false, infoParseOk := fun _ => true,
    infoResult := fun _ => {},
    midErr := fun _ _ => false, midParseOk := fun _ _ => true,
    midResult := fun _ _ => {} }

/-- An environment whose scan finds a single plain SAT device "sda" whose
follow-up info query returns a non-nil error. -/
def envInfoFail : Env :=
  { envOk with
    scanDevices := [{ name := "sda", typ := "sat", openError := "" }],
    infoErr := fun _ => true }

/-- An environment in which every MegaRAID info query returns a non-nil
error. -/
def envMidFail : Env :=
  { envOk with midErr := fun _ _ => true }

/-- An environment whose scan command exits with the given code (the Go
error of CombinedOutput is non-nil exactly for a nonzero code), with
parseable output reporting one plain SAT device. -/
def envScanExit (exitCode : Int) : Env :=
  { envOk with
    scanErr := goCombinedOutputErr false exitCode,
    scanDevices := [{ name := "sda", typ := "sat", openError := "" }] }

/-- A registry entry for a RAID-passthrough device, used as concrete input
below. -/
def passthroughDevice : Device :=
  { Name := "x_megaraid,1", typ := "sat", BusDevice := "x", MegaraidID := "megaraid,1" }

/-- A SCSI payload whose only top-level fields are the health block and a
numeric scsi_grown_defect_list. -/
def payloadDefectList : JObj :=
  .cons "device" (.obj (.cons "protocol" (.str "SCSI") .nil))
    (.cons "scsi_grown_defect_list" (.num 5) .nil)

/-- A payload holding only the nested health block smart_status.passed. -/
def payloadScsiHealth : JObj :=
  .cons "smart_status" (.obj (.cons "passed" (.bool true) .nil)) .nil

/-! ## Map lemmas -/

theorem mapGet_mapSet {α : Type} (m : List (String × α)) (k k' : String) (v : α) :
    mapGet (mapSet m k v) k' = if k = k' then some v else mapGet m k' := by
  induction m with
  | nil => rfl
  | cons q rest ih =>
    obtain ⟨k0, v0⟩ := q
    simp only [mapSet]
    by_cases h0 : k0 = k
    · rw [if_pos h0]
      subst h0
      simp only [mapGet]
      by_cases h1 : k0 = k' <;> simp [h1]
    · rw [if_neg h0]
      simp only [mapGet, ih]
      by_cases h1 : k0 = k' <;> by_cases h2 : k = k'
      · exact absurd (h2 ▸ h1) h0
      · simp [h1, h2]
      · simp [h1, h2]
      · simp [h1, h2]

theorem mapGet_mapSet_self {α : Type} (m : List (String × α)) (k : String) (v : α) :
    mapGet (mapSet m k v) k = some v := by
  rw [mapGet_mapSet, if_pos rfl]

theorem mem_mapSet {α : Type} {m : List (String × α)} {k : String} {v : α}
    {p : String × α} (h : p ∈ mapSet m k v) : p = (k, v) ∨ p ∈ m := by
  induction m with
  | nil => simpa [mapSet] using h
  | cons q rest ih =>
    obtain ⟨k0, v0⟩ := q
    simp only [mapSet] at h
    by_cases h0 : k0 = k
    · rw [if_pos h0] at h
      rcases List.mem_cons.1 h with h1 | h1
      · exact Or.inl h1
      · exact Or.inr (List.mem_cons.2 (Or.inr h1))
    · rw [if_neg h0] at h
      rcases List.mem_cons.1 h with h1 | h1
      · exact Or.inr (List.mem_cons.2 (Or.inl h1))
      · rcases ih h1 with h2 | h2
        · exact Or.inl h2
        · exact Or.inr (List.mem_cons.2 (Or.inr h2))

theorem mapSet_append {α : Type} (m : List (String × α)) (k : String) (v : α)
    (h : k ∉ m.map Prod.fst) : mapSet m k v = m ++ [(k, v)] := by
  induction m with
  | nil => rfl
  | cons q rest ih =>
    obtain ⟨k0, v0⟩ := q
    simp only [List.map_cons, List.mem_cons] at h
    push_neg at h
    simp only [mapSet, if_neg (Ne.symm h.1), List.cons_append, ih h.2]

theorem mapGet_mapDel {α : Type} (m : List (String × α)) (k k' : String) :
    mapGet (mapDel m k) k' = if k' = k then none else mapGet m k' := by
  induction m with
  | nil => simp [mapDel, mapGet]
  | cons q rest ih =>
    obtain ⟨k0, v0⟩ := q
    simp only [mapDel]
    by_cases h0 : k0 = k
    · rw [if_pos h0, ih]
      by_cases h1 : k' = k
      · simp [h1]
      · have h1' : ¬ k0 = k' := fun hh => h1 (hh.symm.trans h0)
        simp [mapGet, h1, h1']
    · rw [if_neg h0]
      simp only [mapGet, ih]
      by_cases h1 : k0 = k' <;> by_cases h2 : k' = k
      · exact absurd (h1.trans h2) h0
      · simp [h1, h2, h0]
      · simp [h1, h2, h0]
      · simp [h1, h2, h0]

theorem mapGet_mapDelAll {α : Type} (ks : List String) (m : List (String × α)) (k : String) :
    mapGet (mapDelAll ks m) k = if k ∈ ks then none else mapGet m k := by
  induction ks generalizing m with
  | nil => simp [mapDelAll]
  | cons k0 rest ih =>
    have step : mapDelAll (k0 :: rest) m = mapDelAll rest (mapDel m k0) := rfl
    rw [step, ih, mapGet_mapDel]
    by_cases h1 : k ∈ rest <;> by_cases h2 : k = k0 <;> simp [h1, h2]

/-! ## String lemmas -/

theorem append_raw_ne_self (s : String) : s ++ "_raw" ≠ s := by
  intro h
  have hlen := congrArg String.length h
  rw [String.length_append] at hlen
  have h4 : "_raw".length = 4 := rfl
  rw [h4] at hlen
  omega

theorem append_raw_ne_smart_passed (s : String) : s ++ "_raw" ≠ "smart_passed" := by
  intro h
  have hd : s.data ++ "_raw".data = "smart_passed".data := by
    rw [← String.data_append, h]
  have hlen := congrArg List.length hd
  have h4 : "_raw".data.length = 4 := rfl
  have h12 : "smart_passed".data.length = 12 := rfl
  rw [List.length_append, h4, h12] at hlen
  have hs8 : s.data.length = 8 := by omega
  have hdrop := congrArg (List.drop 8) hd
  rw [← hs8, List.drop_left] at hdrop
  rw [hs8] at hdrop
  exact absurd hdrop (by decide)

/-! ## Pattern lemmas -/

theorem megaraidCore_shape {l : List Char} {r : String × String}
    (h : megaraidCore l = some r) :
    r.1 = "megaraid," ++ r.2 ∧ r.2 ≠ "" ∧ r.2.data.all Char.isDigit := by
  simp only [megaraidCore] at h
  by_cases hpre : "megaraid,".data.isPrefixOf l
  · rw [if_pos hpre] at h
    by_cases hds : (l.drop 9).takeWhile Char.isDigit = []
    · rw [if_pos hds] at h
      cases h
    · rw [if_neg hds] at h
      injection h with h1
      subst h1
      refine ⟨?_, ?_, ?_⟩
      · rfl
      · intro hempty
        apply hds
        have := congrArg String.data hempty
        simpa using this
      · exact List.all_takeWhile
  · rw [if_neg hpre] at h
    cases h

theorem tryMegaraidAt_shape {l : List Char} {r : String × String}
    (h : tryMegaraidAt l = some r) :
    r.1 = "megaraid," ++ r.2 ∧ r.2 ≠ "" ∧ r.2.data.all Char.isDigit := by
  simp only [tryMegaraidAt] at h
  by_cases hpre : "sat+".data.isPrefixOf l
  · rw [if_pos hpre] at h
    cases hc : megaraidCore (l.drop 4) with
    | some r0 =>
      rw [hc] at h
      have h' : some r0 = some r := h
      injection h' with h''
      exact h'' ▸ megaraidCore_shape hc
    | none =>
      rw [hc] at h
      have h' : megaraidCore l = some r := h
      exact megaraidCore_shape h'
  · rw [if_neg hpre] at h
    have h' : megaraidCore l = some r := h
    exact megaraidCore_shape h'

theorem findMegaraid_shape {l : List Char} {r : String × String}
    (h : findMegaraid l = some r) :
    r.1 = "megaraid," ++ r.2 ∧ r.2 ≠ "" ∧ r.2.data.all Char.isDigit := by
  induction l with
  | nil => cases h
  | cons c cs ih =>
    simp only [findMegaraid] at h
    cases ht : tryMegaraidAt (c :: cs) with
    | some r0 =>
      rw [ht] at h
      have h' : some r0 = some r := h
      injection h' with h''
      exact h'' ▸ tryMegaraidAt_shape ht
    | none =>
      rw [ht] at h
      have h' : findMegaraid cs = some r := h
      exact ih h'

theorem getMegaraidDeviceID_eq_of_find {typ : String} {r : String × String}
    (h : findMegaraid typ.data = some r) : getMegaraidDeviceID typ = r.1 := by
  obtain ⟨a, b⟩ := r
  unfold getMegaraidDeviceID
  rw [h]

theorem getMegaraidDeviceID_of_no_match {typ : String}
    (h : megaraidMatchString typ = false) : getMegaraidDeviceID typ = "" := by
  unfold megaraidMatchString at h
  unfold getMegaraidDeviceID
  cases hf : findMegaraid typ.data with
  | some r0 => rw [hf] at h; simp at h
  | none => rfl

theorem getDeviceInfo_MegaraidID (env : Env) (dev : String) :
    (getDeviceInfo env dev).MegaraidID = "" := by
  unfold getDeviceInfo
  split_ifs <;> rfl

theorem parseAttributes_flat_general :
    ∀ (l : List (String × Rat)) (attributes : AttrMap),
      (l.map Prod.fst).Nodup →
      (∀ k ∈ l.map Prod.fst, k ∉ attributes.map Prod.fst) →
      parseAttributes "" (flatNumObj l) attributes = attributes ++ l := by
  intro l
  induction l with
  | nil =>
    intro attributes _ _
    simp [flatNumObj, parseAttributes]
  | cons p rest ih =>
    intro attributes hnd hfresh
    obtain ⟨k, x⟩ := p
    have step : parseAttributes "" (flatNumObj ((k, x) :: rest)) attributes =
        parseAttributes "" (flatNumObj rest) (mapSet attributes k x) := rfl
    simp only [List.map_cons, List.nodup_cons] at hnd
    have hkfresh : k ∉ attributes.map Prod.fst := hfresh k (by simp)
    have hfresh2 : ∀ k' ∈ rest.map Prod.fst,
        k' ∉ (attributes ++ [(k, x)]).map Prod.fst := by
      intro k' hk'
      have hne : k' ≠ k := fun hh => hnd.1 (hh ▸ hk')
      have hnotmem : k' ∉ attributes.map Prod.fst := hfresh k' (by simp [hk'])
      simp [List.map_append, hne, hnotmem]
    rw [step, mapSet_append _ _ _ hkfresh, ih _ hnd.2 hfresh2]
    simp

/-! ## Claim C2 -/

/-- C2: the recursive flattener parseAttributes is the identity on
already-flat numeric objects (distinct keys) and drops non-numeric leaves
of nested input, joining keys with a single underscore and no separator
before the first segment: flattening {"a":1,"b":2} with empty prefix
yields exactly {"a":1,"b":2}, and flattening {"x":{"y":7,"z":"text"}}
yields exactly {"x_y":7}. -/
theorem C2_flattener :
    (∀ l : List (String × Rat), (l.map Prod.fst).Nodup →
        parseAttributes "" (flatNumObj l) [] = l)
    ∧ parseAttributes "" (.cons "a" (.num 1) (.cons "b" (.num 2) .nil)) [] =
        [("a", 1), ("b", 2)]
    ∧ parseAttributes ""
        (.cons "x" (.obj (.cons "y" (.num 7) (.cons "z" (.str "text") .nil))) .nil) [] =
        [("x_y", 7)] := by
  refine ⟨?_, by decide, by decide⟩
  intro l hnd
  simpa using parseAttributes_flat_general l [] hnd (by simp)

/-- Witness for C2_flattener: the identity conjunct applied to the
concrete flat object {"a":1,"b":2}, whose keys are distinct. -/
theorem C2_flattener_witness :
    ((([("a", 1), ("b", 2)] : List (String × Rat)).map Prod.fst).Nodup) ∧
      parseAttributes "" (flatNumObj [("a", 1), ("b", 2)]) [] = [("a", 1), ("b", 2)] :=
  ⟨by decide, C2_flattener.1 [("a", 1), ("b", 2)] (by decide)⟩

/-! ## Claim C10 -/

/-- C10: the flattener emits no entry for an array-valued member and never
visits its elements — an object member holding any array (numeric elements
included) leaves the accumulated attributes untouched, at every recursion
level. -/
theorem C10_arrays_skipped :
    ∀ (pre key : String) (elems : JArr) (rest : JObj) (attributes : AttrMap),
      parseAttributes pre (.cons key (.arr elems) rest) attributes =
        parseAttributes pre rest attributes := by
  intro pre key elems rest attributes
  rfl

/-! ## Claim C4 -/

/-- C4 counterexample: sanitizing "smartctl_Power-On Hours.2" does not
yield the claimed "smartctl_poweron_hours2" — the hyphen is replaced by an
underscore, not dropped. -/
theorem C4_counterexample :
    sanitizeMetricName "smartctl_Power-On Hours.2" ≠ "smartctl_poweron_hours2" := by
  decide

/-- C4 amended: sanitizing the raw metric name "smartctl_Power-On Hours.2"
yields exactly "smartctl_power_on_hours2": lower-casing, '-' and ' '
replaced by '_', '.' removed ('/' would also become '_'). -/
theorem C4_amended :
    sanitizeMetricName "smartctl_Power-On Hours.2" = "smartctl_power_on_hours2" := by
  decide

/-! ## Claim C8 -/

/-- C8 counterexample: on the payload {"device":{"protocol":"SCSI"},
"scsi_grown_defect_list":5} the RAID-passthrough extractor deletes the
scsi_grown_defect_list key while the plain SCSI extractor keeps it, so the
two paths do not delete the same key set. -/
theorem C8_counterexample :
    smartMegaraidExtract payloadDefectList = some []
    ∧ smartScsiExtract payloadDefectList = [("scsi_grown_defect_list", 5)]
    ∧ "scsi_grown_defect_list" ∈ megaraidRemoveKeys
    ∧ "scsi_grown_defect_list" ∉ scsiRemoveKeys := by
  refine ⟨by decide, by decide, by decide, by decide⟩

/-- C8 amended: the RAID-passthrough removal set strictly contains the
SCSI removal set — it is exactly the SCSI set plus ata_smart_attributes,
scsi_grown_defect_list and scsi_error_counter_log. -/
theorem C8_amended :
    megaraidRemoveKeys.Perm
      (scsiRemoveKeys ++
        ["ata_smart_attributes", "scsi_grown_defect_list", "scsi_error_counter_log"])
    ∧ (scsiRemoveKeys.all fun k => megaraidRemoveKeys.contains k)
    ∧ megaraidRemoveKeys ≠ scsiRemoveKeys := by
  refine ⟨by decide, by decide, by decide⟩

/-! ## Claim C3 -/

/-- C3 counterexample: the SCSI extractor leaves the flattened health leaf
smart_status_passed in place (deleting only the exact key smart_status,
which the flattener never emits for the nested block) and does not add any
smart_passed key. -/
theorem C3_counterexample :
    smartScsiExtract payloadScsiHealth = [("smart_status_passed", 1)]
    ∧ mapGet (smartScsiExtract payloadScsiHealth) "smart_passed" = none := by
  refine ⟨by decide, by decide⟩

/-- C3 amended: the SCSI extractor deletes exactly the four top-level keys
json_format_version, smartctl, device and smart_status from the flattened
document and re-adds nothing — every other key, smart_passed included,
reads exactly as the flattener produced it. -/
theorem C3_amended :
    ∀ (result : JObj) (k : String),
      mapGet (smartScsiExtract result) k =
        if k ∈ scsiRemoveKeys then none else mapGet (parseAttributes "" result []) k := by
  intro result k
  unfold smartScsiExtract
  rw [mapGet_mapDelAll]

/-! ## Claim C7 -/

/-- C7: SAT extraction of a table holding the entry
{name:"Reallocated_Sector_Ct", value:100, raw:{string:"5"}} maps
Reallocated_Sector_Ct to 100 and Reallocated_Sector_Ct_raw to 5; in
general (single-entry tables) the name_raw entry is present exactly when
the raw string's leading whitespace-delimited token parses as a number,
and every successful SAT extraction carries smart_passed equal to 1 or 0
from the boolean health flag. -/
theorem C7_sat_extraction :
    (∀ passed : Bool,
        mapGet (smartSatExtract
            { table := [{ id := 5, name := "Reallocated_Sector_Ct", value := 100,
                          raw := { string := "5" } }], passed := passed })
            "Reallocated_Sector_Ct" = some 100
        ∧ mapGet (smartSatExtract
            { table := [{ id := 5, name := "Reallocated_Sector_Ct", value := 100,
                          raw := { string := "5" } }], passed := passed })
            "Reallocated_Sector_Ct_raw" = some 5)
    ∧ (∀ (e : SatAttr) (passed : Bool),
        mapGet (smartSatExtract { table := [e], passed := passed }) (e.name ++ "_raw") =
          parseRawValue e.raw.string)
    ∧ (∀ result : SatData,
        mapGet (smartSatExtract result) "smart_passed" = some (boolToFloat result.passed)
        ∧ (boolToFloat result.passed = 1 ∨ boolToFloat result.passed = 0)) := by
  refine ⟨?_, ?_, ?_⟩
  · intro passed
    cases passed <;> exact ⟨by decide, by decide⟩
  · intro e passed
    unfold smartSatExtract
    simp only [List.foldl_cons, List.foldl_nil]
    cases hpr : parseRawValue e.raw.string with
    | some rv =>
      simp only [hpr]
      rw [mapGet_mapSet, if_neg (Ne.symm (append_raw_ne_smart_passed e.name)),
        mapGet_mapSet_self]
    | none =>
      simp only [hpr]
      rw [mapGet_mapSet, if_neg (Ne.symm (append_raw_ne_smart_passed e.name)),
        mapGet_mapSet, if_neg (fun hh => append_raw_ne_self e.name hh.symm)]
      rfl
  · intro result
    constructor
    · exact mapGet_mapSet_self _ "smart_passed" _
    · unfold boolToFloat
      cases result.passed <;> simp

/-! ## Claim C5 -/

/-- C5: getMegaraidDeviceID returns the captured "megaraid,<digits>"
substring (group 2 of the pattern, the optional "sat+" prefix excluded,
the digits nonempty) whenever the type string matches megaraidRegexp, and
the empty string otherwise; a scan entry whose type does not match never
adds a RAID-passthrough device (nonempty MegaraidID) to the registry. -/
theorem C5_megaraid_id :
    (∀ (typ : String) (r : String × String), findMegaraid typ.data = some r →
        getMegaraidDeviceID typ = r.1 ∧ r.1 = "megaraid," ++ r.2 ∧ r.2 ≠ "" ∧
          r.2.data.all Char.isDigit)
    ∧ (∀ typ : String, megaraidMatchString typ = false → getMegaraidDeviceID typ = "")
    ∧ (∀ (env : Env) (disks : List (String × Device)) (entry : ScanEntry)
        (p : String × Device), megaraidMatchString entry.typ = false →
        p ∈ addDevice env disks entry → p.2.MegaraidID ≠ "" → p ∈ disks) := by
  refine ⟨?_, ?_, ?_⟩
  · intro typ r h
    exact ⟨getMegaraidDeviceID_eq_of_find h, findMegaraid_shape h⟩
  · intro typ h
    exact getMegaraidDeviceID_of_no_match h
  · intro env disks entry p hmatch hmem hid
    unfold addDevice at hmem
    by_cases hopen : entry.openError ≠ ""
    · rwa [if_pos hopen] at hmem
    · rw [if_neg hopen, if_neg (by simp [hmatch])] at hmem
      rcases mem_mapSet hmem with h1 | h1
      · exfalso
        apply hid
        rw [h1]
        exact getDeviceInfo_MegaraidID env entry.name
      · exact h1

/-- Witness for C5_megaraid_id at concrete inputs: "sat+megaraid,12"
yields "megaraid,12"; "nvme" yields ""; and adding a plain "sat" entry to
a registry already holding a passthrough device leaves that passthrough
entry one of the original registry's. -/
theorem C5_megaraid_id_witness :
    getMegaraidDeviceID "sat+megaraid,12" = "megaraid,12"
    ∧ getMegaraidDeviceID "nvme" = ""
    ∧ ("x_megaraid,1", passthroughDevice) ∈ [("x_megaraid,1", passthroughDevice)] := by
  refine ⟨?_, ?_, ?_⟩
  · exact (C5_megaraid_id.1 "sat+megaraid,12" ("megaraid,12", "12") (by decide)).1
  · exact C5_megaraid_id.2.1 "nvme" (by decide)
  · exact C5_megaraid_id.2.2 envOk [("x_megaraid,1", passthroughDevice)]
      { name := "sdb", typ := "sat", openError := "" }
      ("x_megaraid,1", passthroughDevice) (by decide) (by decide) (by decide)

/-! ## Claim C6 -/

/-- C6 counterexample: with a scan reporting the single plain device "sda"
whose info query fails, getDrives still registers the device under its
scan name, with Name and Type set and all other metadata at zero values —
the device is not dropped. -/
theorem C6_counterexample :
    getDrives envInfoFail = [("sda", { Name := "sda", typ := "sat" })] := by
  decide

/-- C6 amended: on the RAID-passthrough path a failed follow-up info query
(run error, parse failure or unparsable megaraid ID) drops exactly that
device, leaving the registry as it was; on the plain path a failed info
query does not drop the device — it is registered under its scan name with
only Name and Type set and every other metadata field at its zero value. -/
theorem C6_amended :
    (∀ (env : Env) (disks : List (String × Device)) (entry : ScanEntry),
        entry.openError = "" → megaraidMatchString entry.typ = true →
        getMegaraidDeviceInfo env entry.name entry.typ = none →
        addDevice env disks entry = disks)
    ∧ (∀ (env : Env) (disks : List (String × Device)) (entry : ScanEntry),
        entry.openError = "" → megaraidMatchString entry.typ = false →
        (env.infoErr entry.name = true ∨ env.infoParseOk entry.name = false) →
        addDevice env disks entry =
          mapSet disks entry.name { Name := entry.name, typ := entry.typ }) := by
  constructor
  · intro env disks entry hopen hmatch hinfo
    unfold addDevice
    rw [if_neg (by simp [hopen]), if_pos hmatch, hinfo]
  · intro env disks entry hopen hmatch hinfo
    unfold addDevice
    rw [if_neg (by simp [hopen]), if_neg (by simp [hmatch])]
    have hzero : getDeviceInfo env entry.name = {} := by
      unfold getDeviceInfo
      rcases hinfo with h | h
      · rw [if_pos h]
      · by_cases he : env.infoErr entry.name = true
        · rw [if_pos he]
        · rw [if_neg he, if_pos (by simp [h])]
    rw [hzero]

/-- Witness for C6_amended at concrete inputs: a passthrough entry whose
MegaRAID info query fails is dropped from an empty registry, and a plain
entry whose info query fails is registered with zero metadata. -/
theorem C6_amended_witness :
    addDevice envMidFail [] { name := "x", typ := "sat+megaraid,3", openError := "" } = []
    ∧ addDevice envInfoFail [] { name := "sda", typ := "sat", openError := "" } =
        mapSet [] "sda" { Name := "sda", typ := "sat" } := by
  constructor
  · exact C6_amended.1 envMidFail []
      { name := "x", typ := "sat+megaraid,3", openError := "" } rfl (by decide) (by decide)
  · exact C6_amended.2 envInfoFail []
      { name := "sda", typ := "sat", openError := "" } rfl (by decide) (Or.inl rfl)

/-! ## Claim C1 -/

/-- C1 counterexample: the scan command exiting with code 4 (well-formed
CombinedOutput error, parseable output listing one device) empties the
registry, while the identical scan at exit code 0 registers the device —
so the device-scan consumer does not process exit code 4 like exit code
0. -/
theorem C1_counterexample :
    goCombinedOutputErr false 4 = true
    ∧ getDrives (envScanExit 4) = []
    ∧ getDrives (envScanExit 0) =
        [("sda", { Name := "sda", typ := "sat", UserCapacity := "Unknown" })] := by
  refine ⟨rfl, by decide, by decide⟩

/-- C1 amended: the four attribute extractors treat exit codes {0,2,4,6}
as usable — with the CombinedOutput error flag they still proceed to
parsing — but the scan and per-device info consumers abort on any non-nil
error, and any nonzero exit code (2, 4 and 6 included) makes that error
non-nil, so those consumers discard the invocation's output. -/
theorem C1_amended :
    (∀ (startFailed : Bool) (exitCode : Int),
        exitCode = 0 ∨ exitCode = 2 ∨ exitCode = 4 ∨ exitCode = 6 →
        extractorFatal (goCombinedOutputErr startFailed exitCode) exitCode = false)
    ∧ (∀ result : SatData,
        smartSat (goCombinedOutputErr false 4) 4 true result = some (smartSatExtract result))
    ∧ (∀ exitCode : Int, exitCode ≠ 0 → goCombinedOutputErr false exitCode = true)
    ∧ (∀ env : Env, env.scanErr = true → getDrives env = []) := by
  refine ⟨?_, ?_, ?_, ?_⟩
  · intro startFailed exitCode h
    rcases h with rfl | rfl | rfl | rfl <;> cases startFailed <;> decide
  · intro result
    rfl
  · intro exitCode h
    simp [goCombinedOutputErr, h]
  · intro env h
    unfold getDrives
    rw [if_pos h]

/-- Witness for C1_amended at concrete inputs: exit code 4 with a start
failure is still usable for an extractor; a SAT extraction at exit 4
parses; exit code 6 makes the CombinedOutput error non-nil; a scan whose
error is non-nil yields an empty registry. -/
theorem C1_amended_witness :
    extractorFatal (goCombinedOutputErr true 4) 4 = false
    ∧ smartSat (goCombinedOutputErr false 4) 4 true { table := [], passed := true } =
        some (smartSatExtract { table := [], passed := true })
    ∧ goCombinedOutputErr false 6 = true
    ∧ getDrives { envOk with scanErr := true } = [] := by
  refine ⟨?_, ?_, ?_, ?_⟩
  · exact C1_amended.1 true 4 (by decide)
  · exact C1_amended.2.1 { table := [], passed := true }
  · exact C1_amended.2.2.1 6 (by decide)
  · exact C1_amended.2.2.2 { envOk with scanErr := true } rfl
